import Mathlib

/-!
Verification of the NMR peak-matching core (detector.py, compare_nmr_peaks.py).

Shallow embedding conventions:
* chemical shifts and intensities are exact rationals `ℚ` (the Python code uses
  IEEE doubles; all inputs in the claims are short decimal literals, which the
  `OfScientific` instance of `ℚ` represents exactly);
* Python `float(str)` is modelled by `pyFloat?` on decimal literals with
  optional sign, fraction and exponent (no underscores, `inf` or `nan`, which
  never occur in the matching core's inputs);
* a Python function that can raise an uncaught exception is modelled as
  `Except String _`; an exception that the source catches is modelled inside
  the `.ok` branch exactly where the `except` handler resumes.
-/

/-- One character of the whitespace class used by Python's `str.strip` and the
`\s` class of the `re` patterns in detector.py, restricted to the ASCII
whitespace characters (the Unicode-only whitespace code points never occur in
the inputs considered here). -/
def isPySpace (c : Char) : Bool :=
  c = ' ' || c = '\t' || c = '\n' || c = '\r' || c = '\x0b' || c = '\x0c'

/-- `str.strip()` on a character list. -/
def pyStripChars (l : List Char) : List Char :=
  ((l.dropWhile isPySpace).reverse.dropWhile isPySpace).reverse

/-- Python `s.strip()`. -/
def pyStrip (s : String) : String := String.mk (pyStripChars s.data)

/-- Numeric value of a digit string (most significant first). -/
def digitsToNat (l : List Char) : ℕ :=
  l.foldl (fun a c => a * 10 + (c.toNat - 48)) 0

/-- Exponent suffix of a Python float literal: optional sign then at least one
digit, consuming the whole remainder. -/
def pyExpPart (mant : ℚ) (r : List Char) : Option ℚ :=
  let (esgn, r1) : ℤ × List Char :=
    match r with
    | '-' :: r2 => (-1, r2)
    | '+' :: r2 => (1, r2)
    | _ => (1, r)
  let (ed, r3) := r1.span Char.isDigit
  if ed = [] ∨ r3 ≠ [] then none
  else some (mant * (10 : ℚ) ^ (esgn * (digitsToNat ed : ℤ)))

/-- Python's `float(str)` builtin on decimal literals: surrounding whitespace,
optional sign, integer digits, optional `.` and fraction digits (at least one
digit overall), optional exponent.  Returns `none` where `float` raises
`ValueError`.  (`inf`, `nan` and `_` digit separators are not modelled; they
never occur in the matching core's inputs.) -/
def pyFloat? (s : String) : Option ℚ :=
  let t := pyStripChars s.data
  let (sgn, t1) : ℚ × List Char :=
    match t with
    | '-' :: r => (-1, r)
    | '+' :: r => (1, r)
    | _ => (1, t)
  let (ip, t2) := t1.span Char.isDigit
  let (fp, t3) :=
    match t2 with
    | '.' :: r => r.span Char.isDigit
    | _ => ([], t2)
  if ip = [] ∧ fp = [] then none
  else
    let mant : ℚ := sgn * ((digitsToNat ip : ℚ) + (digitsToNat fp : ℚ) / (10 : ℚ) ^ fp.length)
    match t3 with
    | [] => some mant
    | 'e' :: r => pyExpPart mant r
    | 'E' :: r => pyExpPart mant r
    | _ => none

deriving instance DecidableEq for Except

/-- Python `str.split(sep)` for a one-character separator (`"a--b".split` on
the character gives `["a", "", "b"]`; the empty string splits to `[""]`). -/
def splitOnChar (sep : Char) : List Char → List (List Char)
  | [] => [[]]
  | c :: r =>
    if c = sep then [] :: splitOnChar sep r
    else
      match splitOnChar sep r with
      | [] => [[c]]
      | t :: ts => (c :: t) :: ts

/-- detector.py lines 46-63, `_parse_single_value_or_range(val_str)`:
strip the token; if it contains a `-`, split on `-` and unpack into exactly
two floats, returning the midpoint; any `ValueError` (a non-float part, or a
split with more than two parts, whose tuple unpacking also raises
`ValueError`) is caught and yields `None`.  Without a `-` the whole token is
parsed as a single float, `None` on failure. -/
def _parse_single_value_or_range (s : String) : Option ℚ :=
  let t := pyStrip s
  if t.data.contains '-' then
    match ((splitOnChar '-' t.data).map String.mk).map pyFloat? with
    | [some a, some b] => some ((a + b) / 2)
    | _ => none
  else pyFloat? t

/-- A character of the regex class `[\d\.]` from detector.py line 107. -/
def isTokChar (c : Char) : Bool := c.isDigit || c = '.'

/-- The regex group `([\d\.]+(?:-[\d\.]+)?)`: a maximal nonempty run of
digits/dots, optionally extended by `-` and another maximal nonempty run.
Every atom of the source pattern is greedy and its character class is disjoint
from what may legally follow it, so maximal munch coincides with the
backtracking semantics of `re.match`. -/
def shiftTok (l : List Char) : Option (List Char × List Char) :=
  let (r1, rest) := l.span isTokChar
  if r1 = [] then none
  else
    match rest with
    | '-' :: rest2 =>
      let (r2, rest3) := rest2.span isTokChar
      if r2 = [] then some (r1, rest)
      else some (r1 ++ '-' :: r2, rest3)
    | _ => some (r1, rest)

/-- The regex group `(\d*\.?\d*)`: maximal digits, optional dot, maximal
digits; possibly empty. -/
def intTok (l : List Char) : List Char × List Char :=
  let (d1, r1) := l.span Char.isDigit
  match r1 with
  | '.' :: r2 =>
    let (d2, r3) := r2.span Char.isDigit
    (d1 ++ '.' :: d2, r3)
  | _ => (d1, r1)

/-- detector.py line 107: `re.match` of
`^\s*([\d\.]+(?:-[\d\.]+)?)\s+([\d\.]+(?:-[\d\.]+)?)\s*(\d*\.?\d*)?\s*$`
against one line, returning the two shift tokens and the (possibly empty)
intensity token when the line matches. -/
def matchPeakLine (line : String) : Option (String × String × String) :=
  let l0 := line.data.dropWhile isPySpace
  match shiftTok l0 with
  | none => none
  | some (t1, r1) =>
    match r1 with
    | [] => none
    | c :: r2 =>
      if isPySpace c then
        let r3 := r2.dropWhile isPySpace
        match shiftTok r3 with
        | none => none
        | some (t2, r4) =>
          let r5 := r4.dropWhile isPySpace
          let (t3, r6) := intTok r5
          if r6.dropWhile isPySpace = [] then
            some (String.mk t1, String.mk t2, String.mk t3)
          else none
      else none

/-- Spectrum type selector of detector.py (`nmr_type`); it only selects the
column names of the produced records (`H`/`C` versus `H1`/`H2`), which the
positional `Peak` structure subsumes. -/
inductive NmrType
  | hsqc
  | cosy
  | hmbc
deriving DecidableEq, Repr

/-- One parsed peak record of detector.py: `{'H': x, 'C': y, 'Intensity': i}`
for HSQC/HMBC, `{'H1': x, 'H2': y, 'Intensity': i}` for COSY. -/
structure Peak where
  x : ℚ
  y : ℚ
  intensity : ℚ
deriving DecidableEq, Repr

/-- Tokens split on whitespace runs (auxiliary accumulator form). -/
def splitWsAux : List Char → List Char → List (List Char)
  | [], acc => if acc = [] then [] else [acc.reverse]
  | c :: r, acc =>
    if isPySpace c then
      if acc = [] then splitWsAux r [] else acc.reverse :: splitWsAux r []
    else splitWsAux r (c :: acc)

/-- Split a character list into maximal whitespace-free tokens. -/
def splitWsTokens (l : List Char) : List (List Char) := splitWsAux l []

/-- detector.py line 96: the header regex
`^\s*(?:1H|H1)\s+(?:13C|H2)\s+Intensity\s*$` with `re.IGNORECASE` on the
stripped first line: exactly three whitespace-separated tokens with the given
case-insensitive spellings. -/
def isHeaderLine (line : List Char) : Bool :=
  match splitWsTokens (pyStripChars line) with
  | [a, b, c] =>
    let la := String.mk (a.map Char.toLower)
    let lb := String.mk (b.map Char.toLower)
    let lc := String.mk (c.map Char.toLower)
    (la = "1h" || la = "h1") && (lb = "13c" || lb = "h2") && lc = "intensity"
  | _ => false

/-- detector.py lines 100-127, the per-line loop of `parse_peak_data` on
string input.  A blank line is skipped; a line that fails the peak regex is
skipped with a warning; on a regex match the intensity token is converted
with `float` FIRST (line 116) - a nonempty intensity token that `float`
rejects raises `ValueError`, which nothing in the source catches, so the
whole parse aborts (`Except.error`) - and only then are unparsable shift
tokens checked, skipping the line. -/
def parsePeakLines : List (List Char) → Except String (List Peak)
  | [] => .ok []
  | ln :: rest =>
    let l := String.mk (pyStripChars ln)
    if l = "" then parsePeakLines rest
    else
      match matchPeakLine l with
      | none => parsePeakLines rest
      | some (t1, t2, t3) =>
        let i? : Except String ℚ :=
          if t3 = "" then .ok 1
          else
            match pyFloat? t3 with
            | some v => .ok v
            | none => .error ("ValueError: could not convert string to float: " ++ t3)
        match i? with
        | .error e => .error e
        | .ok inten =>
          match _parse_single_value_or_range t1, _parse_single_value_or_range t2 with
          | some s1, some s2 =>
            match parsePeakLines rest with
            | .ok ps => .ok (⟨s1, s2, inten⟩ :: ps)
            | .error e => .error e
          | _, _ => parsePeakLines rest

/-- detector.py lines 65-127, `parse_peak_data(peak_data, nmr_type)` on
string input (the structured-list branch is not needed by the claims): empty
input yields the empty peak set; otherwise the text is stripped and split on
newlines, a recognized header line is dropped, and each line is parsed by
`parsePeakLines`.  The resulting DataFrame is modelled by its list of row
records. -/
def parse_peak_data (s : String) (_t : NmrType) : Except String (List Peak) :=
  if s = "" then .ok []
  else
    let lines := splitOnChar '\n' (pyStripChars s.data)
    let lines :=
      match lines with
      | [] => []
      | l₀ :: rest => if isHeaderLine l₀ then rest else l₀ :: rest
    parsePeakLines lines

/-- One element of the list returned by `find_compound_matches`
(detector.py lines 385-388): the record
`{'sample_peak': ..., 'db_peak': ...}`. -/
structure MatchPair where
  sample_peak : Peak
  db_peak : Peak
deriving DecidableEq, Repr

/-- The tolerance test of detector.py lines 383-384:
`abs(db_peak[h] - sample_peak[h]) <= tolerance_h and
 abs(db_peak[c] - sample_peak[c]) <= tolerance_c`. -/
def withinTol (dbp sp : Peak) (tolH tolC : ℚ) : Bool :=
  decide (|dbp.x - sp.x| ≤ tolH) && decide (|dbp.y - sp.y| ≤ tolC)

/-- Eligibility of an indexed sample peak for a given database peak
(detector.py lines 375-384): not yet consumed, and within tolerance on both
axes. -/
def eligible (dbp : Peak) (tolH tolC : ℚ) (consumed : List ℕ) (q : ℕ × Peak) : Bool :=
  !(decide (q.1 ∈ consumed)) && withinTol dbp q.2 tolH tolC

/-- detector.py lines 372-392, the nested loops of `find_compound_matches`:
for each database peak in stored order, the first eligible (unconsumed,
within-tolerance) sample peak is recorded and its index marked consumed; the
inner loop `break`s, so each database peak yields at most one pair. -/
def findMatchesAux (tolH tolC : ℚ) (sEnum : List (ℕ × Peak)) :
    List Peak → List ℕ → List (ℕ × MatchPair)
  | [], _ => []
  | dbp :: rest, consumed =>
    match sEnum.find? (eligible dbp tolH tolC consumed) with
    | some q => (q.1, ⟨q.2, dbp⟩) :: findMatchesAux tolH tolC sEnum rest (q.1 :: consumed)
    | none => findMatchesAux tolH tolC sEnum rest consumed

/-- detector.py lines 356-392, `find_compound_matches(sample_peaks, db_peaks,
tolerance_h, tolerance_c)`: the list of matched
`{'sample_peak': ..., 'db_peak': ...}` records. -/
def find_compound_matches (samples dbPeaks : List Peak) (tolH tolC : ℚ) : List MatchPair :=
  (findMatchesAux tolH tolC samples.enum dbPeaks []).map Prod.snd

/-- The three sample peak sets handed to `analyze_mixture`, already parsed to
record lists (detector.py lines 407-411; parsing itself is modelled by
`parse_peak_data`). -/
structure SamplePeaks where
  hsqc : List Peak
  cosy : List Peak
  hmbc : List Peak
deriving DecidableEq, Repr

/-- One database entry as seen by `analyze_mixture` after the per-type
`parse_peak_data` calls of detector.py lines 423-427. -/
structure CompoundEntry where
  name : String
  hsqc : List Peak
  cosy : List Peak
  hmbc : List Peak
deriving DecidableEq, Repr

/-- The `details` dictionary of a result entry (detector.py lines 504-511);
the `"m/t"` strings are represented by the pairs `(m, t)` of the two counts
they render. -/
structure MatchDetails where
  hsqc_matches : ℕ × ℕ
  cosy_matches : ℕ × ℕ
  hmbc_matches : ℕ × ℕ
  hsqc_percentage : Option ℚ
  cosy_percentage : Option ℚ
  hmbc_percentage : Option ℚ
deriving DecidableEq, Repr

/-- One element of the `results`/`detected_entries` list of `analyze_mixture`
(detector.py lines 501-512). -/
structure DetectedEntry where
  compound : CompoundEntry
  match_score : ℚ
  details : MatchDetails
deriving DecidableEq, Repr

/-- `numpy.mean` on a nonempty list: sum divided by length. -/
def np_mean (l : List ℚ) : ℚ := l.sum / l.length

/-- detector.py lines 473-475: `len(matches[t]) / len(compound_peaks[t]) if
len(compound_peaks[t]) > 0 else None`. -/
def typePercentage (ms : List MatchPair) (dbp : List Peak) : Option ℚ :=
  if dbp.length > 0 then some ((ms.length : ℚ) / dbp.length) else none

/-- detector.py lines 430-511, the per-compound body of the `analyze_mixture`
loop: run `find_compound_matches` per spectrum type (COSY with
`(tolerance_h, tolerance_h)`, lines 433-434), form the per-type percentages,
average the non-`None` ones (`np.mean(scores_to_average) if scores_to_average
else 0.0`, line 488) and build the result record. -/
def scoreCompound (sample : SamplePeaks) (c : CompoundEntry) (tolH tolC : ℚ) : DetectedEntry :=
  let hm := find_compound_matches sample.hsqc c.hsqc tolH tolC
  let cm := find_compound_matches sample.cosy c.cosy tolH tolH
  let bm := find_compound_matches sample.hmbc c.hmbc tolH tolC
  let hp := typePercentage hm c.hsqc
  let cp := typePercentage cm c.cosy
  let bp := typePercentage bm c.hmbc
  let scores_to_average := hp.toList ++ cp.toList ++ bp.toList
  { compound := c
    match_score := if scores_to_average = [] then 0 else np_mean scores_to_average
    details :=
      { hsqc_matches := (hm.length, c.hsqc.length)
        cosy_matches := (cm.length, c.cosy.length)
        hmbc_matches := (bm.length, c.hmbc.length)
        hsqc_percentage := hp
        cosy_percentage := cp
        hmbc_percentage := bp } }

/-- detector.py lines 443-461: for every returned match, the index of the
matched sample peak is recovered by scanning the sample list for the FIRST
element equal to the `sample_peak` record
(`next(i for i, item in enumerate(...) if item == match['sample_peak'])`);
a `StopIteration` (never-found) is caught and the match skipped. -/
def matchedIdxs (samples : List Peak) (ms : List MatchPair) : List ℕ :=
  ms.filterMap fun m => samples.findIdx? fun p => decide (p = m.sample_peak)

/-- The accumulation of `overall_matched_*_indices` over ALL database entries
(detector.py lines 413-416 and 443-461); the Python `set` is modelled by a
list used only through membership. -/
def overallMatchedIdxs (samples : List Peak) (dbLists : List (List Peak)) (tolH tolC : ℚ) :
    List ℕ :=
  (dbLists.map fun db => matchedIdxs samples (find_compound_matches samples db tolH tolC)).flatten

/-- detector.py lines 518-526: the sample peaks whose index was never added
to the overall matched set, projected to `[axis1, axis2]` pairs. -/
def unmatchedPeaksFor (samples : List Peak) (dbLists : List (List Peak)) (tolH tolC : ℚ) :
    List (ℚ × ℚ) :=
  ((samples.enum.filter fun q =>
      !(decide (q.1 ∈ overallMatchedIdxs samples dbLists tolH tolC))).map
    fun q => (q.2.x, q.2.y))

/-- The `unmatched_sample_peaks` dictionary of the `analyze_mixture` result
(detector.py lines 539-543). -/
structure UnmatchedPeaks where
  hsqc : List (ℚ × ℚ)
  cosy : List (ℚ × ℚ)
  hmbc : List (ℚ × ℚ)
deriving DecidableEq, Repr

/-- Stable insertion of an entry into a list already sorted descending by
`match_score`: the entry goes in front of the first strictly lower-scoring
element, AFTER any equal-scoring one already there. -/
def insertScoreDesc (e : DetectedEntry) : List DetectedEntry → List DetectedEntry
  | [] => [e]
  | x :: xs =>
    if e.match_score ≤ x.match_score then x :: insertScoreDesc e xs
    else e :: x :: xs

/-- detector.py line 529: `sorted(results, key=lambda x: x['match_score'],
reverse=True)`.  Python's `sorted` is a stable descending sort; this
structurally recursive insertion sort computes the same list (a right fold
inserts earlier elements last, and `insertScoreDesc` keeps an earlier element
in front of every equal-scoring later one). -/
def sortScoreDesc (l : List DetectedEntry) : List DetectedEntry :=
  l.foldr insertScoreDesc []

/-- The analysis half of the `analyze_mixture` return value (detector.py
lines 537-544; the base64 plot tuple is display-only and not modelled). -/
structure AnalysisResult where
  detected_entries : List DetectedEntry
  unmatched_sample_peaks : UnmatchedPeaks
deriving DecidableEq, Repr

/-- detector.py lines 396-544, `analyze_mixture` after the sample peak sets
have been parsed: score every database entry, keep those with
`match_score >= 0.10` (line 499), sort them descending by score with Python's
stable `sorted` (line 529), and report the sample peaks never consumed by ANY
evaluated compound. -/
def analyze_mixture (sample : SamplePeaks) (entries : List CompoundEntry)
    (tolH tolC : ℚ) : AnalysisResult :=
  let results := (entries.map fun c => scoreCompound sample c tolH tolC).filter
    fun e => decide ((1 : ℚ) / 10 ≤ e.match_score)
  { detected_entries := sortScoreDesc results
    unmatched_sample_peaks :=
      { hsqc := unmatchedPeaksFor sample.hsqc (entries.map (·.hsqc)) tolH tolC
        cosy := unmatchedPeaksFor sample.cosy (entries.map (·.cosy)) tolH tolH
        hmbc := unmatchedPeaksFor sample.hmbc (entries.map (·.hmbc)) tolH tolC } }

/-- compare_nmr_peaks.py line 11: `methanol_1H_ref = 3.31`. -/
def methanol_1H_ref : ℚ := 3.31

/-- compare_nmr_peaks.py line 12: `methanol_13C_ref = 49.1`. -/
def methanol_13C_ref : ℚ := 49.1

/-- One row of the experimental DataFrame of compare_nmr_peaks.py after the
`astype(float)` conversions: `1H`, `13C`, and `Intensity` (which is `NaN`,
modelled `none`, when the row had no third field). -/
structure ExpRow where
  h : ℚ
  c : ℚ
  intensity : Option ℚ
deriving DecidableEq, Repr

/-- An experimental row after calibration (columns `1H_calibrated`,
`13C_calibrated` added, compare_nmr_peaks.py lines 68-69 / 76-77). -/
structure CalPeak where
  h : ℚ
  c : ℚ
  intensity : Option ℚ
  hcal : ℚ
  ccal : ℚ
deriving DecidableEq, Repr

/-- One database reference peak row of compare_nmr_peaks.py
(`chemical_shift_x`, `chemical_shift_y`). -/
structure RefPeak where
  chemical_shift_x : ℚ
  chemical_shift_y : ℚ
deriving DecidableEq, Repr

/-- Whitespace-tokenized non-blank rows of the peak text, as
`pd.read_csv(..., delim_whitespace=True)` sees them (blank lines skipped). -/
def csvRows (s : String) : List (List String) :=
  ((splitOnChar '\n' s.data).map fun ln => (splitWsTokens ln).map String.mk).filter
    fun r => !r.isEmpty

/-- compare_nmr_peaks.py lines 40-43: `pd.read_csv(StringIO(...),
delim_whitespace=True, header=None, names=['1H','13C','Intensity'])`.  A row
with more fields than the three names raises a tokenizing `ParserError`
(caught by the surrounding `try`); shorter rows are padded with `NaN`
(`none`). -/
def read_csv_ws (s : String) :
    Except String (List (Option String × Option String × Option String)) :=
  let rows := csvRows s
  if rows.any fun r => decide (r.length > 3) then
    .error "Expected 3 fields in parsed line"
  else
    .ok (rows.map fun r => (r.get? 0, r.get? 1, r.get? 2))

/-- compare_nmr_peaks.py line 49: `exp_df.dropna(subset=['1H','13C'])`. -/
def dropnaRows (rows : List (Option String × Option String × Option String)) :
    List (String × String × Option String) :=
  rows.filterMap fun r =>
    match r with
    | (some a, some b, c) => some (a, b, c)
    | _ => none

/-- compare_nmr_peaks.py lines 54-57: the `astype(float)` conversions of the
`Intensity`, `1H` and `13C` columns.  A token `float` rejects raises
`ValueError`, which is OUTSIDE the `try` of lines 34-45 and therefore escapes
`compare_peaks`; a missing intensity stays `NaN` (`none`). -/
def astypeRows : List (String × String × Option String) → Except String (List ExpRow)
  | [] => .ok []
  | (a, b, ci) :: rest =>
    let i? : Except String (Option ℚ) :=
      match ci with
      | none => .ok none
      | some t =>
        match pyFloat? t with
        | some v => .ok (some v)
        | none => .error ("ValueError: could not convert string to float: " ++ t)
    match i?, pyFloat? a, pyFloat? b with
    | .error e, _, _ => .error e
    | .ok _, none, _ => .error ("ValueError: could not convert string to float: " ++ a)
    | .ok _, some _, none => .error ("ValueError: could not convert string to float: " ++ b)
    | .ok iv, some ha, some hb =>
      match astypeRows rest with
      | .ok rs => .ok (⟨ha, hb, iv⟩ :: rs)
      | .error e => .error e

/-- Maximum of a rational list, `none` on the empty list. -/
def listMax? : List ℚ → Option ℚ
  | [] => none
  | x :: xs =>
    match listMax? xs with
    | none => some x
    | some m => some (max x m)

/-- `exp_df['Intensity'].idxmax()` followed by `exp_df.loc[...]`
(compare_nmr_peaks.py line 61): the FIRST row whose intensity attains the
maximum over the non-`NaN` intensities; with every intensity `NaN`, `idxmax`
raises (`none` here, turned into an error by `calibrate`). -/
def idxmaxIntensity (rows : List ExpRow) : Option ExpRow :=
  match listMax? (rows.filterMap (·.intensity)) with
  | none => none
  | some m => rows.find? fun r => decide (r.intensity = some m)

/-- compare_nmr_peaks.py lines 59-77: calibration against the methanol
reference using the most intense peak as anchor; an empty experimental frame
passes through uncalibrated, and an all-`NaN` intensity column makes `idxmax`
raise an uncaught `ValueError`. -/
def calibrate (rows : List ExpRow) : Except String (List CalPeak) :=
  if rows.isEmpty then
    .ok (rows.map fun r => ⟨r.h, r.c, r.intensity, r.h, r.c⟩)
  else
    match idxmaxIntensity rows with
    | none => .error "ValueError: attempt to get argmax of an empty sequence"
    | some a =>
      let calibration_shift_1H := methanol_1H_ref - a.h
      let calibration_shift_13C := methanol_13C_ref - a.c
      .ok (rows.map fun r =>
        ⟨r.h, r.c, r.intensity, r.h + calibration_shift_1H, r.c + calibration_shift_13C⟩)

/-- compare_nmr_peaks.py lines 85-93, `peak_matches(ref_peak,
experimental_peaks)`: `True` iff ANY calibrated experimental peak is within
tolerance of the reference peak on both axes (pure existence check, no
consumption). -/
def peak_matches (ref : RefPeak) (experimental_peaks : List CalPeak) (d1 dC : ℚ) : Bool :=
  experimental_peaks.any fun e =>
    decide (|ref.chemical_shift_x - e.hcal| ≤ d1) &&
      decide (|ref.chemical_shift_y - e.ccal| ≤ dC)

/-- One iteration of the per-compound classification loop of
compare_nmr_peaks.py lines 96-110: count the reference peaks of the group
that hit; all of them → append the id to `fully_matched`; otherwise, if at
least one hit and `(matched/total)*100 >= 50`, append
`(id, matched, total, percentage)` to `partially_matched` (the `"m/t"` and
`"p%"` strings are represented by the numbers they render). -/
def classifyStep (exps : List CalPeak) (d1 dC : ℚ)
    (acc : List String × List (String × ℕ × ℕ × ℚ)) (g : String × List RefPeak) :
    List String × List (String × ℕ × ℕ × ℚ) :=
  let total_peaks : ℕ := g.2.length
  let matched_peaks : ℕ := g.2.countP fun r => peak_matches r exps d1 dC
  if matched_peaks = total_peaks then (acc.1 ++ [g.1], acc.2)
  else if 0 < matched_peaks ∧ (50 : ℚ) ≤ (matched_peaks : ℚ) / (total_peaks : ℚ) * 100 then
    (acc.1, acc.2 ++ [((g.1, matched_peaks, total_peaks,
      (matched_peaks : ℚ) / (total_peaks : ℚ) * 100) : String × ℕ × ℕ × ℚ)])
  else acc

/-- compare_nmr_peaks.py lines 96-110, the whole classification loop. -/
def classifyGroups (groups : List (String × List RefPeak)) (exps : List CalPeak) (d1 dC : ℚ) :
    List String × List (String × ℕ × ℕ × ℚ) :=
  groups.foldl (classifyStep exps d1 dC) ([], [])

/-- The dictionary returned by `compare_peaks` (keys `fully`, `partial`,
optional `message`); the `partial` key is named after the
`partially_matched` list that fills it. -/
structure CompareResult where
  fully_matched : List String
  partially_matched : List (String × ℕ × ℕ × ℚ)
  message : Option String
deriving DecidableEq, Repr

/-- compare_nmr_peaks.py lines 21-116, `compare_peaks(hsqc_peaks_str,
delta_1H, delta_13C)` with the reference table (grouped by `database_id` as
`groupby` yields it) passed explicitly: empty stripped input returns the
explicit no-peaks message; a `read_csv` tokenizing error is caught and
returned as a message; an `astype`/`idxmax` `ValueError` escapes uncaught
(`Except.error`). -/
def compare_peaks (hsqc_peaks_str : String) (d1 dC : ℚ)
    (groups : List (String × List RefPeak)) : Except String CompareResult :=
  if pyStrip hsqc_peaks_str = "" then
    .ok { fully_matched := [], partially_matched := [],
          message := some "No HSQC peaks provided for analysis." }
  else
    match read_csv_ws hsqc_peaks_str with
    | .error e =>
      .ok { fully_matched := [], partially_matched := [],
            message := some ("Error parsing HSQC peaks string: " ++ e) }
    | .ok raw =>
      match astypeRows (dropnaRows raw) with
      | .error e => .error e
      | .ok exp_df =>
        match calibrate exp_df with
        | .error e => .error e
        | .ok cal =>
          let r := classifyGroups groups cal d1 dC
          .ok { fully_matched := r.1, partially_matched := r.2, message := none }

/-! ## Properties of the correspondence matcher -/

section MatcherProofs

attribute [local semireducible] Rat.add Rat.sub Rat.mul Rat.inv Rat.ofScientific

theorem findMatchesAux_cons (tolH tolC : ℚ) (sEnum : List (ℕ × Peak)) (dbp : Peak)
    (rest : List Peak) (consumed : List ℕ) :
    findMatchesAux tolH tolC sEnum (dbp :: rest) consumed =
      match sEnum.find? (eligible dbp tolH tolC consumed) with
      | some q => (q.1, ⟨q.2, dbp⟩) :: findMatchesAux tolH tolC sEnum rest (q.1 :: consumed)
      | none => findMatchesAux tolH tolC sEnum rest consumed := rfl

theorem eligible_eq_true {dbp : Peak} {tolH tolC : ℚ} {consumed : List ℕ} {q : ℕ × Peak}
    (h : eligible dbp tolH tolC consumed q = true) :
    q.1 ∉ consumed ∧ withinTol dbp q.2 tolH tolC = true := by
  simpa [eligible] using h

/-- Invariant of the greedy matching loop: every recorded pair has an
unconsumed sample index drawn from the enumerated samples and passes the
tolerance test; recorded indices are pairwise distinct; and the database
components form a sublist of the database peaks in stored order. -/
theorem findMatchesAux_spec (tolH tolC : ℚ) (sEnum : List (ℕ × Peak)) :
    ∀ (db : List Peak) (consumed : List ℕ),
      (∀ q ∈ findMatchesAux tolH tolC sEnum db consumed,
          q.1 ∉ consumed ∧ (q.1, q.2.sample_peak) ∈ sEnum ∧
            withinTol q.2.db_peak q.2.sample_peak tolH tolC = true) ∧
      ((findMatchesAux tolH tolC sEnum db consumed).map Prod.fst).Nodup ∧
      ((findMatchesAux tolH tolC sEnum db consumed).map fun q => q.2.db_peak).Sublist db := by
  intro db
  induction db with
  | nil => intro consumed; simp [findMatchesAux]
  | cons dbp rest ih =>
    intro consumed
    rw [findMatchesAux_cons]
    cases hfind : sEnum.find? (eligible dbp tolH tolC consumed) with
    | none =>
      obtain ⟨h1, h2, h3⟩ := ih consumed
      exact ⟨h1, h2, h3.cons dbp⟩
    | some q =>
      obtain ⟨i, sp⟩ := q
      obtain ⟨hni, htol⟩ := eligible_eq_true (List.find?_some hfind)
      have hqmem : (i, sp) ∈ sEnum := List.mem_of_find?_eq_some hfind
      obtain ⟨h1, h2, h3⟩ := ih (i :: consumed)
      refine ⟨?_, ?_, ?_⟩
      · intro x hx
        rcases List.mem_cons.1 hx with hx | hx
        · subst hx
          exact ⟨hni, hqmem, htol⟩
        · obtain ⟨hc, hm, ht⟩ := h1 x hx
          exact ⟨fun hmem => hc (List.mem_cons_of_mem _ hmem), hm, ht⟩
      · refine List.nodup_cons.2 ⟨?_, h2⟩
        intro hmem
        obtain ⟨x, hx, hfst⟩ := List.mem_map.1 hmem
        exact (h1 x hx).1 (hfst ▸ List.mem_cons_self _ _)
      · exact h3.cons₂ dbp

/-- Claim C1: `find_compound_matches` returns a one-to-one correspondence:
with pairwise-distinct sample peaks, each sample peak occurs in at most one
returned pair (the sample components are pairwise distinct); the reference
components form a sublist of the reference list (each reference peak
contributes at most one pair, in stored order); every returned pair is
within tolerance on both axes; and on the spec's example with
sample=[(3.30,49.0)], reference=[(3.31,49.05),(3.305,49.02)],
tolerances (0.06,0.8), exactly one pair is produced, claimed by the FIRST
reference peak in stored iteration order. -/
theorem C1_find_compound_matches_one_to_one
    (samples dbPeaks : List Peak) (tolH tolC : ℚ) (hnd : samples.Nodup) :
    ((find_compound_matches samples dbPeaks tolH tolC).map MatchPair.sample_peak).Nodup ∧
    ((find_compound_matches samples dbPeaks tolH tolC).map MatchPair.db_peak).Sublist dbPeaks ∧
    (∀ m ∈ find_compound_matches samples dbPeaks tolH tolC,
        withinTol m.db_peak m.sample_peak tolH tolC = true) ∧
    find_compound_matches [⟨3.30, 49.0, 1⟩] [⟨3.31, 49.05, 1⟩, ⟨3.305, 49.02, 1⟩] 0.06 0.8 =
      [⟨⟨3.30, 49.0, 1⟩, ⟨3.31, 49.05, 1⟩⟩] := by
  obtain ⟨h1, h2, h3⟩ := findMatchesAux_spec tolH tolC samples.enum dbPeaks []
  set res := findMatchesAux tolH tolC samples.enum dbPeaks [] with hres
  have hinjfst : ∀ x ∈ res, ∀ y ∈ res, x.1 = y.1 → x = y := List.inj_on_of_nodup_map h2
  have hsnd : (samples.enum.map Prod.snd) = samples := List.enumFrom_map_snd 0 samples
  have hinjenum : ∀ p ∈ samples.enum, ∀ q ∈ samples.enum, p.2 = q.2 → p = q :=
    List.inj_on_of_nodup_map (by rw [hsnd]; exact hnd)
  refine ⟨?_, ?_, ?_, by decide⟩
  · have hsp : ∀ x ∈ res, ∀ y ∈ res, x.2.sample_peak = y.2.sample_peak → x = y := by
      intro x hx y hy hsp
      have hxe := (h1 x hx).2.1
      have hye := (h1 y hy).2.1
      have heq := hinjenum _ hxe _ hye hsp
      have hfst := congrArg Prod.fst heq
      exact hinjfst x hx y hy hfst
    have hn : res.Nodup := h2.of_map
    have hm := hn.map_on hsp
    simp only [find_compound_matches, ← hres, List.map_map]
    exact hm
  · simp only [find_compound_matches, ← hres, List.map_map]
    exact h3
  · intro m hm
    simp only [find_compound_matches, ← hres, List.mem_map] at hm
    obtain ⟨q, hq, rfl⟩ := hm
    exact (h1 q hq).2.2

theorem withinTol_iff {dbp sp : Peak} {tolH tolC : ℚ} :
    withinTol dbp sp tolH tolC = true ↔ |dbp.x - sp.x| ≤ tolH ∧ |dbp.y - sp.y| ≤ tolC := by
  simp [withinTol]

/-- Claim C5 counterexample: COSY matching in `analyze_mixture` is NOT
symmetric.  The sample COSY peak (1,2) is within tolerance of the reference
COSY peak (2,1) in the swapped orientation only; the code produces no match
for it (the compound is not detected and the peak is reported unmatched),
while the axis-swapped sample peak (2,1) matches (compound detected, nothing
unmatched).  Swapping the two axes of the sample peak changes the result. -/
theorem C5_counterexample_cosy_not_symmetric :
    (analyze_mixture ⟨[], [⟨1, 2, 1⟩], []⟩ [⟨"X", [], [⟨2, 1, 1⟩], []⟩]
        0.05 0.5).detected_entries = [] ∧
    (analyze_mixture ⟨[], [⟨1, 2, 1⟩], []⟩ [⟨"X", [], [⟨2, 1, 1⟩], []⟩]
        0.05 0.5).unmatched_sample_peaks.cosy = [(1, 2)] ∧
    (analyze_mixture ⟨[], [⟨2, 1, 1⟩], []⟩ [⟨"X", [], [⟨2, 1, 1⟩], []⟩]
        0.05 0.5).detected_entries.length = 1 ∧
    (analyze_mixture ⟨[], [⟨2, 1, 1⟩], []⟩ [⟨"X", [], [⟨2, 1, 1⟩], []⟩]
        0.05 0.5).unmatched_sample_peaks.cosy = [] := by
  decide

/-- Claim C5 amended: COSY matching in `analyze_mixture` is
orientation-sensitive.  A single sample COSY peak `s` matches a single
reference COSY peak `r` exactly when the comparison succeeds in the GIVEN
orientation (axis 1 against axis 1, axis 2 against axis 2, both with the ¹H
tolerance); the swapped orientation is never tried, so swapping the axes of
a sample peak may change which reference peaks are matched.  The COSY matches
that `analyze_mixture` scores are exactly `find_compound_matches` on the
stored orientation with `(tolerance_h, tolerance_h)`. -/
theorem C5_amended_cosy_oriented (s r : Peak) (tolH tolC : ℚ) (sample : SamplePeaks)
    (c : CompoundEntry) :
    (find_compound_matches [s] [r] tolH tolH =
      if |r.x - s.x| ≤ tolH ∧ |r.y - s.y| ≤ tolH then [⟨s, r⟩] else []) ∧
    (scoreCompound sample c tolH tolC).details.cosy_matches =
      ((find_compound_matches sample.cosy c.cosy tolH tolH).length, c.cosy.length) := by
  constructor
  · by_cases h : |r.x - s.x| ≤ tolH ∧ |r.y - s.y| ≤ tolH
    · rw [if_pos h]
      have hw : withinTol r s tolH tolH = true := withinTol_iff.2 h
      simp [find_compound_matches, findMatchesAux, List.enum, List.enumFrom, List.find?,
        eligible, hw]
    · rw [if_neg h]
      have hw : withinTol r s tolH tolH = false := by
        rw [← Bool.not_eq_true]
        exact fun hc => h (withinTol_iff.1 hc)
      simp [find_compound_matches, findMatchesAux, List.enum, List.enumFrom, List.find?,
        eligible, hw]
  · rfl

/-- Claim C10: matched sample peaks are mapped back to indices by searching
for the FIRST list element equal to the matched record.  With the duplicated
sample HSQC peak (3.3,49) and a compound whose two reference peaks consume
BOTH occurrences, the matcher returns two pairs, yet both are attributed to
index 0, so index 1 never enters the overall matched set and the second
occurrence is still reported among the unmatched sample peaks even though it
was consumed (while the compound is detected with a full score). -/
theorem C10_first_occurrence_attribution :
    (find_compound_matches [⟨3.3, 49, 1⟩, ⟨3.3, 49, 1⟩] [⟨3.3, 49, 1⟩, ⟨3.31, 49, 1⟩]
        0.05 0.5).length = 2 ∧
    overallMatchedIdxs [⟨3.3, 49, 1⟩, ⟨3.3, 49, 1⟩] [[⟨3.3, 49, 1⟩, ⟨3.31, 49, 1⟩]]
        0.05 0.5 = [0, 0] ∧
    (analyze_mixture ⟨[⟨3.3, 49, 1⟩, ⟨3.3, 49, 1⟩], [], []⟩
        [⟨"c", [⟨3.3, 49, 1⟩, ⟨3.31, 49, 1⟩], [], []⟩]
        0.05 0.5).unmatched_sample_peaks.hsqc = [(3.3, 49)] ∧
    (analyze_mixture ⟨[⟨3.3, 49, 1⟩, ⟨3.3, 49, 1⟩], [], []⟩
        [⟨"c", [⟨3.3, 49, 1⟩, ⟨3.31, 49, 1⟩], [], []⟩]
        0.05 0.5).detected_entries.length = 1 := by
  decide

/-- Claim C3: per-type percentages are the matched count over the compound's
peak count of that type when that count is positive and `None` otherwise
(COSY matched with the ¹H tolerance on both axes); the aggregate
`match_score` is the arithmetic mean (sum over length) of the non-`None`
percentages; and a compound with zero peaks of every type scores 0.0. -/
theorem C3_percentages_and_aggregate (sample : SamplePeaks) (c : CompoundEntry)
    (tolH tolC : ℚ) (nm : String) :
    ((scoreCompound sample c tolH tolC).details.hsqc_percentage =
      if 0 < c.hsqc.length then
        some (((find_compound_matches sample.hsqc c.hsqc tolH tolC).length : ℚ) / c.hsqc.length)
      else none) ∧
    ((scoreCompound sample c tolH tolC).details.cosy_percentage =
      if 0 < c.cosy.length then
        some (((find_compound_matches sample.cosy c.cosy tolH tolH).length : ℚ) / c.cosy.length)
      else none) ∧
    ((scoreCompound sample c tolH tolC).details.hmbc_percentage =
      if 0 < c.hmbc.length then
        some (((find_compound_matches sample.hmbc c.hmbc tolH tolC).length : ℚ) / c.hmbc.length)
      else none) ∧
    ((scoreCompound sample c tolH tolC).match_score =
      if ((scoreCompound sample c tolH tolC).details.hsqc_percentage.toList ++
          (scoreCompound sample c tolH tolC).details.cosy_percentage.toList ++
          (scoreCompound sample c tolH tolC).details.hmbc_percentage.toList) = [] then 0
      else ((scoreCompound sample c tolH tolC).details.hsqc_percentage.toList ++
          (scoreCompound sample c tolH tolC).details.cosy_percentage.toList ++
          (scoreCompound sample c tolH tolC).details.hmbc_percentage.toList).sum /
        (((scoreCompound sample c tolH tolC).details.hsqc_percentage.toList ++
          (scoreCompound sample c tolH tolC).details.cosy_percentage.toList ++
          (scoreCompound sample c tolH tolC).details.hmbc_percentage.toList).length : ℚ)) ∧
    (scoreCompound sample ⟨nm, [], [], []⟩ tolH tolC).match_score = 0 :=
  ⟨rfl, rfl, rfl, rfl, rfl⟩

theorem mem_insertScoreDesc {x e : DetectedEntry} {l : List DetectedEntry} :
    x ∈ insertScoreDesc e l ↔ x = e ∨ x ∈ l := by
  induction l with
  | nil => simp [insertScoreDesc]
  | cons a l ih =>
    simp only [insertScoreDesc]
    split
    · rw [List.mem_cons, ih, List.mem_cons]
      tauto
    · simp only [List.mem_cons]

theorem mem_sortScoreDesc {x : DetectedEntry} {l : List DetectedEntry} :
    x ∈ sortScoreDesc l ↔ x ∈ l := by
  induction l with
  | nil => simp [sortScoreDesc]
  | cons a l ih =>
    show x ∈ insertScoreDesc a (sortScoreDesc l) ↔ _
    rw [mem_insertScoreDesc, List.mem_cons, ih]

/-- Claim C4: a scored compound entry is in `detected_entries` exactly when
its aggregate `match_score` is at least the hard-coded threshold 0.10; at the
boundary, the compound A scoring exactly 1/10 (one of ten HSQC peaks matched)
is accepted while the compound B scoring 1/11 is excluded. -/
theorem C4_score_threshold (sample : SamplePeaks) (entries : List CompoundEntry)
    (tolH tolC : ℚ) (e : DetectedEntry) :
    (e ∈ (analyze_mixture sample entries tolH tolC).detected_entries ↔
      e ∈ entries.map (fun c => scoreCompound sample c tolH tolC) ∧
        (1 : ℚ) / 10 ≤ e.match_score) ∧
    (analyze_mixture ⟨[⟨3.3, 49, 1⟩], [], []⟩
      [⟨"A", [⟨3.31, 49, 1⟩, ⟨100, 100, 1⟩, ⟨200, 200, 1⟩, ⟨300, 300, 1⟩, ⟨1, 1, 1⟩,
              ⟨2, 2, 1⟩, ⟨3, 3, 1⟩, ⟨4, 4, 1⟩, ⟨5, 5, 1⟩, ⟨6, 6, 1⟩], [], []⟩,
       ⟨"B", [⟨3.31, 49, 1⟩, ⟨100, 100, 1⟩, ⟨200, 200, 1⟩, ⟨300, 300, 1⟩, ⟨1, 1, 1⟩,
              ⟨2, 2, 1⟩, ⟨3, 3, 1⟩, ⟨4, 4, 1⟩, ⟨5, 5, 1⟩, ⟨6, 6, 1⟩, ⟨7, 7, 1⟩], [], []⟩]
      0.05 0.5).detected_entries.map (fun e => (e.compound.name, e.match_score)) =
    [("A", 1 / 10)] := by
  constructor
  · show e ∈ sortScoreDesc _ ↔ _
    rw [mem_sortScoreDesc, List.mem_filter, decide_eq_true_eq]
  · decide


theorem mem_overallMatchedIdxs {samples : List Peak} {dbLists : List (List Peak)}
    {tolH tolC : ℚ} {i : ℕ} :
    i ∈ overallMatchedIdxs samples dbLists tolH tolC ↔
      ∃ db ∈ dbLists, ∃ m ∈ find_compound_matches samples db tolH tolC,
        samples.findIdx? (fun p => decide (p = m.sample_peak)) = some i := by
  unfold overallMatchedIdxs matchedIdxs
  constructor
  · intro h
    obtain ⟨l, hl, hil⟩ := List.mem_flatten.1 h
    obtain ⟨db, hdb, rfl⟩ := List.mem_map.1 hl
    obtain ⟨m, hm, hf⟩ := List.mem_filterMap.1 hil
    exact ⟨db, hdb, m, hm, hf⟩
  · rintro ⟨db, hdb, m, hm, hf⟩
    exact List.mem_flatten.2
      ⟨_, List.mem_map.2 ⟨db, hdb, rfl⟩, List.mem_filterMap.2 ⟨m, hm, hf⟩⟩

/-- Claim C2 counterexample: the unmatched-peak bookkeeping is NOT scoped to
accepted compounds.  The sole sample HSQC peak is consumed by a compound that
scores 1/12 < 0.10 and is therefore rejected (no accepted compound exists),
yet `unmatched_sample_peaks.hsqc` comes back empty instead of containing the
peak. -/
theorem C2_counterexample_rejected_compound_consumes :
    (analyze_mixture ⟨[⟨3.3, 49, 1⟩], [], []⟩
        [⟨"low", [⟨3.31, 49, 1⟩, ⟨100, 100, 1⟩, ⟨200, 200, 1⟩, ⟨300, 300, 1⟩],
          [⟨100, 100, 1⟩], [⟨100, 100, 1⟩]⟩]
        0.05 0.5).detected_entries = [] ∧
    (analyze_mixture ⟨[⟨3.3, 49, 1⟩], [], []⟩
        [⟨"low", [⟨3.31, 49, 1⟩, ⟨100, 100, 1⟩, ⟨200, 200, 1⟩, ⟨300, 300, 1⟩],
          [⟨100, 100, 1⟩], [⟨100, 100, 1⟩]⟩]
        0.05 0.5).unmatched_sample_peaks.hsqc = [] := by
  decide

/-- Claim C2 amended: per spectrum type, a sample peak appears in
`unmatched_sample_peaks` exactly when it was never consumed by ANY EVALUATED
compound's correspondence matching - threshold acceptance plays no role
(stated for samples whose peaks have pairwise-distinct shift pairs, so that
the first-equal-element index attribution recovers each peak's own index);
and the three per-type entries of `analyze_mixture`'s output are exactly
this per-type computation over all database entries. -/
theorem C2_amended_unmatched_any_evaluated (samples : List Peak)
    (dbLists : List (List Peak)) (tolH tolC : ℚ) (p : Peak)
    (hnd : (samples.map fun q => (q.x, q.y)).Nodup) (hp : p ∈ samples) :
    ((p.x, p.y) ∈ unmatchedPeaksFor samples dbLists tolH tolC ↔
      ∀ db ∈ dbLists,
        p ∉ (find_compound_matches samples db tolH tolC).map MatchPair.sample_peak) ∧
    (∀ (sample : SamplePeaks) (entries : List CompoundEntry),
      (analyze_mixture sample entries tolH tolC).unmatched_sample_peaks =
        { hsqc := unmatchedPeaksFor sample.hsqc (entries.map (·.hsqc)) tolH tolC
          cosy := unmatchedPeaksFor sample.cosy (entries.map (·.cosy)) tolH tolH
          hmbc := unmatchedPeaksFor sample.hmbc (entries.map (·.hmbc)) tolH tolC }) := by
  have hndrec : samples.Nodup := hnd.of_map
  have coordInj : ∀ a ∈ samples, ∀ b ∈ samples, (a.x, a.y) = (b.x, b.y) → a = b :=
    List.inj_on_of_nodup_map hnd
  constructor
  · constructor
    · intro hmem db hdb hpmem
      obtain ⟨q, hqf, hcoords⟩ := List.mem_map.1 hmem
      obtain ⟨hqe, hqb⟩ := List.mem_filter.1 hqf
      have hq2 : q.2 ∈ samples := List.snd_mem_of_mem_enum hqe
      have hq2p : q.2 = p := coordInj _ hq2 _ hp hcoords
      have hnotin : q.1 ∉ overallMatchedIdxs samples dbLists tolH tolC := by
        simpa using hqb
      obtain ⟨m, hm, hmsp⟩ := List.mem_map.1 hpmem
      have hspmem : m.sample_peak ∈ samples := hmsp ▸ hp
      have hiss : (samples.findIdx? fun x => decide (x = m.sample_peak)).isSome := by
        rw [List.findIdx?_isSome, List.any_eq_true]
        exact ⟨m.sample_peak, hspmem, by simp⟩
      obtain ⟨j, hj⟩ := Option.isSome_iff_exists.1 hiss
      obtain ⟨hjlt, hpj, -⟩ := List.findIdx?_eq_some_iff_getElem.1 hj
      have hsj : samples[j] = m.sample_peak := of_decide_eq_true hpj
      have hq1get : samples[q.1]? = some p := by
        have := List.mem_enum_iff_getElem?.1 hqe
        rw [← hq2p]
        exact this
      have hjget : samples[j]? = some p := by
        rw [List.getElem?_eq_getElem hjlt, hsj, hmsp]
      have hq1lt : q.1 < samples.length := List.fst_lt_of_mem_enum hqe
      have : q.1 = j := List.getElem?_inj hq1lt hndrec (hq1get.trans hjget.symm)
      exact hnotin (mem_overallMatchedIdxs.2 ⟨db, hdb, m, hm, this ▸ hj⟩)
    · intro hnone
      obtain ⟨i, hi⟩ := List.getElem?_of_mem hp
      have hie : (i, p) ∈ samples.enum := List.mk_mem_enum_iff_getElem?.2 hi
      have hinot : i ∉ overallMatchedIdxs samples dbLists tolH tolC := by
        intro hio
        obtain ⟨db, hdb, m, hm, hfi⟩ := mem_overallMatchedIdxs.1 hio
        obtain ⟨hilt, hpi, -⟩ := List.findIdx?_eq_some_iff_getElem.1 hfi
        have hsi : samples[i] = m.sample_peak := of_decide_eq_true hpi
        have hip : samples[i] = p := by
          have := List.getElem?_eq_getElem hilt
          rw [this] at hi
          exact Option.some.inj hi
        have : m.sample_peak = p := hsi ▸ hip
        exact hnone db hdb (List.mem_map.2 ⟨m, hm, this⟩)
      refine List.mem_map.2 ⟨(i, p), List.mem_filter.2 ⟨hie, ?_⟩, rfl⟩
      simpa using hinot
  · intro sample entries
    rfl

/-- Witness for the amended Claim C2 at a concrete input: the sample peak
(3.3,49) is consumed by the (rejected) compound of the counterexample, and
accordingly it does not figure among the unmatched peaks. -/
theorem C2_amended_witness :
    ¬ (((3.3 : ℚ), (49 : ℚ)) ∈ unmatchedPeaksFor [⟨3.3, 49, 1⟩]
        [[⟨3.31, 49, 1⟩, ⟨100, 100, 1⟩, ⟨200, 200, 1⟩, ⟨300, 300, 1⟩]] 0.05 0.5) := by
  have h := (C2_amended_unmatched_any_evaluated [⟨3.3, 49, 1⟩]
    [[⟨3.31, 49, 1⟩, ⟨100, 100, 1⟩, ⟨200, 200, 1⟩, ⟨300, 300, 1⟩]] 0.05 0.5 ⟨3.3, 49, 1⟩
    (by decide) (by decide)).1
  intro hmem
  have := h.1 hmem [⟨3.31, 49, 1⟩, ⟨100, 100, 1⟩, ⟨200, 200, 1⟩, ⟨300, 300, 1⟩] (by decide)
  exact this (by decide)


/-- Witness for Claim C1 at the spec's concrete input. -/
theorem C1_witness :
    ((find_compound_matches [⟨3.30, 49.0, 1⟩] [⟨3.31, 49.05, 1⟩, ⟨3.305, 49.02, 1⟩]
        0.06 0.8).map MatchPair.sample_peak).Nodup ∧
    ((find_compound_matches [⟨3.30, 49.0, 1⟩] [⟨3.31, 49.05, 1⟩, ⟨3.305, 49.02, 1⟩]
        0.06 0.8).map MatchPair.db_peak).Sublist [⟨3.31, 49.05, 1⟩, ⟨3.305, 49.02, 1⟩] ∧
    (∀ m ∈ find_compound_matches [⟨3.30, 49.0, 1⟩] [⟨3.31, 49.05, 1⟩, ⟨3.305, 49.02, 1⟩]
        0.06 0.8, withinTol m.db_peak m.sample_peak 0.06 0.8 = true) ∧
    find_compound_matches [⟨3.30, 49.0, 1⟩] [⟨3.31, 49.05, 1⟩, ⟨3.305, 49.02, 1⟩] 0.06 0.8 =
      [⟨⟨3.30, 49.0, 1⟩, ⟨3.31, 49.05, 1⟩⟩] :=
  C1_find_compound_matches_one_to_one [⟨3.30, 49.0, 1⟩]
    [⟨3.31, 49.05, 1⟩, ⟨3.305, 49.02, 1⟩] 0.06 0.8 (by decide)

theorem classifyStep_append (exps : List CalPeak) (d1 dC : ℚ)
    (acc : List String × List (String × ℕ × ℕ × ℚ)) (g : String × List RefPeak) :
    classifyStep exps d1 dC acc g =
      (acc.1 ++ (classifyStep exps d1 dC ([], []) g).1,
       acc.2 ++ (classifyStep exps d1 dC ([], []) g).2) := by
  unfold classifyStep
  dsimp only
  split
  · simp
  · split
    · simp
    · simp

theorem classifyGroups_foldl_acc (groups : List (String × List RefPeak))
    (exps : List CalPeak) (d1 dC : ℚ) :
    ∀ acc, groups.foldl (classifyStep exps d1 dC) acc =
      (acc.1 ++ (classifyGroups groups exps d1 dC).1,
       acc.2 ++ (classifyGroups groups exps d1 dC).2) := by
  induction groups with
  | nil => intro acc; simp [classifyGroups]
  | cons g gs ih =>
    intro acc
    show gs.foldl _ (classifyStep exps d1 dC acc g) = _
    rw [ih (classifyStep exps d1 dC acc g), classifyStep_append]
    have hR : classifyGroups (g :: gs) exps d1 dC =
        gs.foldl (classifyStep exps d1 dC) (classifyStep exps d1 dC ([], []) g) := rfl
    rw [hR, ih (classifyStep exps d1 dC ([], []) g)]
    simp

theorem classifyGroups_cons (g : String × List RefPeak) (groups : List (String × List RefPeak))
    (exps : List CalPeak) (d1 dC : ℚ) :
    classifyGroups (g :: groups) exps d1 dC =
      ((classifyStep exps d1 dC ([], []) g).1 ++ (classifyGroups groups exps d1 dC).1,
       (classifyStep exps d1 dC ([], []) g).2 ++ (classifyGroups groups exps d1 dC).2) := by
  show groups.foldl _ (classifyStep exps d1 dC ([], []) g) = _
  rw [classifyGroups_foldl_acc groups exps d1 dC (classifyStep exps d1 dC ([], []) g)]

theorem classifyGroups_ids (groups : List (String × List RefPeak))
    (exps : List CalPeak) (d1 dC : ℚ) :
    (∀ x ∈ (classifyGroups groups exps d1 dC).1, x ∈ groups.map Prod.fst) ∧
    (∀ e ∈ (classifyGroups groups exps d1 dC).2, e.1 ∈ groups.map Prod.fst) := by
  induction groups with
  | nil => constructor <;> intro x hx <;> simp [classifyGroups] at hx
  | cons g gs ih =>
    rw [classifyGroups_cons]
    constructor
    · intro x hx
      rcases List.mem_append.1 hx with hx | hx
      · unfold classifyStep at hx
        dsimp only at hx
        split at hx
        · simp at hx
          simp [hx]
        · split at hx <;> simp at hx
      · exact List.mem_cons_of_mem _ (ih.1 x hx)
    · intro e he
      rcases List.mem_append.1 he with he | he
      · unfold classifyStep at he
        dsimp only at he
        split at he
        · simp at he
        · split at he
          · simp at he
            subst he
            simp
          · simp at he
      · exact List.mem_cons_of_mem _ (ih.2 e he)

/-- Membership characterization of the classification loop for one group of
the table, in the exact form of the source's branch conditions. -/
theorem classifyGroups_mem_char (groups : List (String × List RefPeak))
    (exps : List CalPeak) (d1 dC : ℚ) (cid : String) (g : List RefPeak)
    (hmem : (cid, g) ∈ groups) (hnd : (groups.map Prod.fst).Nodup) :
    (cid ∈ (classifyGroups groups exps d1 dC).1 ↔
      g.countP (fun r => peak_matches r exps d1 dC) = g.length) ∧
    (∀ m t pct, ((cid, m, t, pct) ∈ (classifyGroups groups exps d1 dC).2 ↔
      (m = g.countP (fun r => peak_matches r exps d1 dC) ∧ t = g.length ∧
        pct = (m : ℚ) / (t : ℚ) * 100 ∧ ¬ m = t ∧ 0 < m ∧
        (50 : ℚ) ≤ (m : ℚ) / (t : ℚ) * 100))) := by
  induction groups with
  | nil => cases hmem
  | cons a gs ih =>
    rcases List.mem_cons.1 hmem with heq | htail
    · have ha1 : a.1 = cid := by rw [← heq]
      have hnotin : cid ∉ gs.map Prod.fst := by
        have := (List.nodup_cons.1 hnd).1
        rwa [ha1] at this
      rw [classifyGroups_cons]
      have hknot1 : cid ∉ (classifyGroups gs exps d1 dC).1 :=
        fun hc => hnotin ((classifyGroups_ids gs exps d1 dC).1 cid hc)
      have hknot2 : ∀ m t pct, ((cid, m, t, pct) : String × ℕ × ℕ × ℚ) ∉
          (classifyGroups gs exps d1 dC).2 :=
        fun m t pct hc => hnotin ((classifyGroups_ids gs exps d1 dC).2 _ hc)
      rw [← heq]
      constructor
      · unfold classifyStep
        dsimp only
        split
        · rename_i hcase
          simp only [List.mem_append]
          constructor
          · intro _; exact hcase
          · intro _; left; simp
        · rename_i hcase
          split
          · simp only [List.mem_append]
            constructor
            · intro h
              rcases h with h | h
              · simp at h
              · exact absurd h hknot1
            · intro h; exact absurd h hcase
          · simp only [List.mem_append]
            constructor
            · intro h
              rcases h with h | h
              · simp at h
              · exact absurd h hknot1
            · intro h; exact absurd h hcase
      · intro m t pct
        unfold classifyStep
        dsimp only
        split
        · rename_i hcase
          simp only [List.mem_append]
          constructor
          · intro h
            rcases h with h | h
            · simp at h
            · exact absurd h (hknot2 m t pct)
          · rintro ⟨rfl, rfl, -, hne, -⟩
            exact absurd hcase hne
        · rename_i hcase
          split
          · rename_i hcond
            simp only [List.mem_append]
            constructor
            · intro h
              rcases h with h | h
              · simp at h
                obtain ⟨hm, ht, hp⟩ := h
                subst hm
                subst ht
                subst hp
                exact ⟨rfl, rfl, rfl, hcase, hcond.1, hcond.2⟩
              · exact absurd h (hknot2 m t pct)
            · rintro ⟨rfl, rfl, rfl, -, -⟩
              left
              simp
          · rename_i hcond
            simp only [List.mem_append]
            constructor
            · intro h
              rcases h with h | h
              · simp at h
              · exact absurd h (hknot2 m t pct)
            · rintro ⟨rfl, rfl, rfl, -, h1, h2⟩
              exact absurd ⟨h1, h2⟩ hcond
    · have ha1 : a.1 ≠ cid := by
        intro hc
        have := (List.nodup_cons.1 hnd).1
        exact this (hc ▸ (List.mem_map.2 ⟨(cid, g), htail, rfl⟩))
      rw [classifyGroups_cons]
      obtain ⟨ih1, ih2⟩ := ih htail (List.nodup_cons.1 hnd).2
      constructor
      · rw [← ih1]
        simp only [List.mem_append]
        constructor
        · intro h
          rcases h with h | h
          · exfalso
            unfold classifyStep at h
            dsimp only at h
            split at h
            · simp at h; exact ha1 h.symm
            · split at h <;> simp at h
          · exact h
        · intro h; right; exact h
      · intro m t pct
        rw [← ih2 m t pct]
        simp only [List.mem_append]
        constructor
        · intro h
          rcases h with h | h
          · exfalso
            unfold classifyStep at h
            dsimp only at h
            split at h
            · simp at h
            · split at h
              · simp at h; exact ha1 h.1.symm
              · simp at h
          · exact h
        · intro h; right; exact h


theorem partialCond_iff {m t : ℕ} (hle : m ≤ t) (ht : 0 < t) :
    (¬ m = t ∧ 0 < m ∧ (50 : ℚ) ≤ (m : ℚ) / (t : ℚ) * 100) ↔
      (m < t ∧ (1 : ℚ) / 2 ≤ (m : ℚ) / (t : ℚ)) := by
  have htq : (0 : ℚ) < (t : ℚ) := by exact_mod_cast ht
  constructor
  · rintro ⟨hne, -, h50⟩
    exact ⟨lt_of_le_of_ne hle hne, by linarith⟩
  · rintro ⟨hlt, hhalf⟩
    refine ⟨ne_of_lt hlt, ?_, by linarith⟩
    rcases Nat.eq_zero_or_pos m with h0 | h0
    · subst h0
      rw [Nat.cast_zero, zero_div] at hhalf
      linarith
    · exact h0

/-- Claim C6: in the quick comparator, a reference peak hits exactly when ANY
calibrated sample peak is within tolerance on both axes (existence, no
consumption); a compound id with at least one reference peak lands in the
fully-matched list exactly when every reference peak of its group hits, in
the partially-matched list (with its hit/total counts and percentage) exactly
when hits < total and hits/total >= 1/2, and is omitted otherwise; at the
boundary the compound with one of two reference peaks hit (exactly 0.50) is
reported as partial through the whole `compare_peaks` pipeline. -/
theorem C6_quick_comparator_classification (groups : List (String × List RefPeak))
    (exps : List CalPeak) (d1 dC : ℚ) (cid : String) (g : List RefPeak)
    (hmem : (cid, g) ∈ groups) (hnd : (groups.map Prod.fst).Nodup) (hne : g ≠ []) :
    (∀ r : RefPeak, peak_matches r exps d1 dC = true ↔
        ∃ e ∈ exps, |r.chemical_shift_x - e.hcal| ≤ d1 ∧ |r.chemical_shift_y - e.ccal| ≤ dC) ∧
    (cid ∈ (classifyGroups groups exps d1 dC).1 ↔
        g.countP (fun r => peak_matches r exps d1 dC) = g.length) ∧
    (∀ m t pct, ((cid, m, t, pct) ∈ (classifyGroups groups exps d1 dC).2 ↔
        (m = g.countP (fun r => peak_matches r exps d1 dC) ∧ t = g.length ∧
          pct = (m : ℚ) / (t : ℚ) * 100 ∧ m < t ∧ (1 : ℚ) / 2 ≤ (m : ℚ) / (t : ℚ)))) ∧
    compare_peaks "3.31 49.1 1.0" 0.06 0.8 [("A", [⟨3.31, 49.1⟩, ⟨9, 9⟩])] =
      .ok ⟨[], [("A", 1, 2, 50)], none⟩ := by
  obtain ⟨hfull, hpart⟩ := classifyGroups_mem_char groups exps d1 dC cid g hmem hnd
  have hle : g.countP (fun r => peak_matches r exps d1 dC) ≤ g.length :=
    List.countP_le_length _
  have ht : 0 < g.length := List.length_pos.2 hne
  refine ⟨?_, hfull, ?_, by decide⟩
  · intro r
    simp [peak_matches]
  · intro m t pct
    rw [hpart m t pct]
    constructor
    · rintro ⟨hm, htq, hp, h1, h2, h3⟩
      subst hm
      subst htq
      obtain ⟨hlt, hhalf⟩ := (partialCond_iff hle ht).1 ⟨h1, h2, h3⟩
      exact ⟨rfl, rfl, hp, hlt, hhalf⟩
    · rintro ⟨hm, htq, hp, hlt, hhalf⟩
      subst hm
      subst htq
      obtain ⟨h1, h2, h3⟩ := (partialCond_iff hle ht).2 ⟨hlt, hhalf⟩
      exact ⟨rfl, rfl, hp, h1, h2, h3⟩

/-- Witness for Claim C6 at the 0.50 boundary instance: one of the two
reference peaks of compound A hits the (already calibrated) sample peak, so A
is not fully matched but appears as partial with counts (1, 2) and
percentage 50. -/
theorem C6_witness :
    ("A" ∈ (classifyGroups [("A", [⟨3.31, 49.1⟩, ⟨9, 9⟩])]
        [⟨3.31, 49.1, some 1, 3.31, 49.1⟩] 0.06 0.8).1 ↔
      ([⟨3.31, 49.1⟩, ⟨9, 9⟩] : List RefPeak).countP
        (fun r => peak_matches r [⟨3.31, 49.1, some 1, 3.31, 49.1⟩] 0.06 0.8) = 2) ∧
    (("A", 1, 2, (50 : ℚ)) ∈ (classifyGroups [("A", [⟨3.31, 49.1⟩, ⟨9, 9⟩])]
        [⟨3.31, 49.1, some 1, 3.31, 49.1⟩] 0.06 0.8).2 ↔
      (1 = ([⟨3.31, 49.1⟩, ⟨9, 9⟩] : List RefPeak).countP
          (fun r => peak_matches r [⟨3.31, 49.1, some 1, 3.31, 49.1⟩] 0.06 0.8) ∧
        2 = ([⟨3.31, 49.1⟩, ⟨9, 9⟩] : List RefPeak).length ∧
        (50 : ℚ) = (1 : ℚ) / (2 : ℚ) * 100 ∧ 1 < 2 ∧
        (1 : ℚ) / 2 ≤ (1 : ℚ) / (2 : ℚ))) := by
  have h := C6_quick_comparator_classification [("A", [⟨3.31, 49.1⟩, ⟨9, 9⟩])]
    [⟨3.31, 49.1, some 1, 3.31, 49.1⟩] 0.06 0.8 "A" [⟨3.31, 49.1⟩, ⟨9, 9⟩]
    (by decide) (by decide) (by decide)
  exact ⟨h.2.1, h.2.2.1 1 2 (50 : ℚ)⟩


theorem listMax?_eq_none : ∀ {l : List ℚ}, listMax? l = none → l = [] := by
  intro l h
  cases l with
  | nil => rfl
  | cons b l' =>
    unfold listMax? at h
    cases h2 : listMax? l' <;> rw [h2] at h <;> cases h

theorem listMax?_spec : ∀ (l : List ℚ) (m : ℚ), listMax? l = some m →
    m ∈ l ∧ ∀ x ∈ l, x ≤ m := by
  intro l
  induction l with
  | nil => intro m h; cases h
  | cons a l ih =>
    intro m h
    unfold listMax? at h
    cases hl : listMax? l with
    | none =>
      rw [hl] at h
      have ha : a = m := Option.some.inj h
      subst ha
      have hl' : l = [] := listMax?_eq_none hl
      subst hl'
      constructor
      · exact List.mem_singleton.2 rfl
      · intro x hx
        rw [List.mem_singleton.1 hx]
    | some m' =>
      rw [hl] at h
      have hm : m = max a m' := (Option.some.inj h).symm
      obtain ⟨hmem', hub'⟩ := ih m' hl
      subst hm
      constructor
      · rcases max_choice a m' with hc | hc
        · rw [hc]; exact List.mem_cons_self a l
        · rw [hc]; exact List.mem_cons_of_mem a hmem'
      · intro x hx
        rcases List.mem_cons.1 hx with rfl | hx
        · exact le_max_left _ _
        · exact le_trans (hub' x hx) (le_max_right _ _)

/-- Claim C7: the quick-comparator calibration anchors on the first sample
peak of maximum intensity (pandas `idxmax` tie-breaking), computes the
offsets against the fixed methanol reference pair (3.31, 49.1), and adds the
same offsets to both axes of every sample peak; in particular, the sole
sample peak (3.35, 49.7, 1.0) gives offsets (-0.04, -0.6) and is calibrated
onto (3.31, 49.1). -/
theorem C7_calibration_anchor_and_offsets (rows : List ExpRow) (m : ℚ)
    (hmax : listMax? (rows.filterMap ExpRow.intensity) = some m) :
    (∃ a, idxmaxIntensity rows = some a ∧ a.intensity = some m ∧
      (∃ pre post, rows = pre ++ a :: post ∧ ∀ x ∈ pre, ¬ x.intensity = some m) ∧
      (∀ x ∈ rows, ∀ v, x.intensity = some v → v ≤ m) ∧
      calibrate rows = .ok (rows.map fun r =>
        ⟨r.h, r.c, r.intensity, r.h + (methanol_1H_ref - a.h),
          r.c + (methanol_13C_ref - a.c)⟩)) ∧
    methanol_1H_ref - 3.35 = -(0.04 : ℚ) ∧
    methanol_13C_ref - 49.7 = -(0.6 : ℚ) ∧
    calibrate [⟨3.35, 49.7, some 1⟩] = .ok [⟨3.35, 49.7, some 1, 3.31, 49.1⟩] := by
  refine ⟨?_, by decide, by decide, by decide⟩
  obtain ⟨hm_mem, hm_ub⟩ := listMax?_spec _ m hmax
  obtain ⟨r0, hr0, hr0i⟩ := List.mem_filterMap.1 hm_mem
  have hsome : (rows.find? fun r => decide (r.intensity = some m)).isSome :=
    List.find?_isSome.2 ⟨r0, hr0, by simp [hr0i]⟩
  obtain ⟨a, ha⟩ := Option.isSome_iff_exists.1 hsome
  obtain ⟨hpa, as, bs, hsplit, hpre⟩ := List.find?_eq_some.1 ha
  have hai : a.intensity = some m := of_decide_eq_true hpa
  have hidx : idxmaxIntensity rows = some a := by
    unfold idxmaxIntensity
    rw [hmax]
    exact ha
  have hne : rows ≠ [] := by
    intro h
    rw [h] at hr0
    cases hr0
  have hemp : rows.isEmpty = false := List.isEmpty_eq_false.2 hne
  refine ⟨a, hidx, hai, ⟨as, bs, hsplit, ?_⟩, ?_, ?_⟩
  · intro x hx
    have := hpre x hx
    simpa using this
  · intro x hx v hv
    exact hm_ub v (List.mem_filterMap.2 ⟨x, hx, hv⟩)
  · unfold calibrate
    simp only [hemp, Bool.false_eq_true, if_false, hidx]

/-- Witness for Claim C7 at the spec's concrete input. -/
theorem C7_witness :
    (∃ a, idxmaxIntensity [⟨3.35, 49.7, some 1⟩] = some a ∧ a.intensity = some 1 ∧
      (∃ pre post, ([⟨3.35, 49.7, some 1⟩] : List ExpRow) = pre ++ a :: post ∧
        ∀ x ∈ pre, ¬ x.intensity = some 1) ∧
      (∀ x ∈ ([⟨3.35, 49.7, some 1⟩] : List ExpRow), ∀ v, x.intensity = some v → v ≤ 1) ∧
      calibrate [⟨3.35, 49.7, some 1⟩] =
        .ok (([⟨3.35, 49.7, some 1⟩] : List ExpRow).map fun r =>
          ⟨r.h, r.c, r.intensity, r.h + (methanol_1H_ref - a.h),
            r.c + (methanol_13C_ref - a.c)⟩)) ∧
    methanol_1H_ref - 3.35 = -(0.04 : ℚ) ∧
    methanol_13C_ref - 49.7 = -(0.6 : ℚ) ∧
    calibrate [⟨3.35, 49.7, some 1⟩] = .ok [⟨3.35, 49.7, some 1, 3.31, 49.1⟩] :=
  C7_calibration_anchor_and_offsets [⟨3.35, 49.7, some 1⟩] 1 (by decide)


/-- Intensity-token sanity of one raw line: either the peak regex fails (so
the line is skipped), or the captured intensity token is empty or accepted by
`float`.  Exactly the lines violating this make `parse_peak_data` raise. -/
def lineIntensityOk (ln : List Char) : Bool :=
  match matchPeakLine (String.mk (pyStripChars ln)) with
  | some out => decide (out.2.2 = "") || (pyFloat? out.2.2).isSome
  | none => true

theorem parsePeakLines_tail_isOk (t1 t2 : String) (inten : ℚ) (rest : List (List Char))
    (hrest : (parsePeakLines rest).isOk = true) :
    (match _parse_single_value_or_range t1, _parse_single_value_or_range t2 with
      | some s1, some s2 =>
        match parsePeakLines rest with
        | Except.ok ps => Except.ok ((⟨s1, s2, inten⟩ : Peak) :: ps)
        | Except.error e => Except.error e
      | _, _ => parsePeakLines rest).isOk = true := by
  cases _parse_single_value_or_range t1 with
  | none => exact hrest
  | some s1 =>
    cases _parse_single_value_or_range t2 with
    | none => exact hrest
    | some s2 =>
      cases hr : parsePeakLines rest with
      | ok ps => rfl
      | error e => rw [hr] at hrest; cases hrest

theorem parsePeakLines_isOk (lines : List (List Char))
    (h : ∀ ln ∈ lines, lineIntensityOk ln = true) :
    (parsePeakLines lines).isOk = true := by
  induction lines with
  | nil => rfl
  | cons ln rest ih =>
    have hok := h ln (List.mem_cons_self ..)
    have hrest := ih fun l hl => h l (List.mem_cons_of_mem _ hl)
    unfold parsePeakLines
    dsimp only
    split
    · exact hrest
    · unfold lineIntensityOk at hok
      cases hml : matchPeakLine (String.mk (pyStripChars ln)) with
      | none => exact hrest
      | some out =>
        obtain ⟨t1, t2, t3⟩ := out
        rw [hml] at hok
        dsimp only at hok ⊢
        by_cases h3 : t3 = ""
        · rw [if_pos h3]
          exact parsePeakLines_tail_isOk t1 t2 1 rest hrest
        · rw [if_neg h3]
          simp [h3] at hok
          obtain ⟨v, hv⟩ := Option.isSome_iff_exists.1 hok
          rw [hv]
          exact parsePeakLines_tail_isOk t1 t2 v rest hrest

theorem parse_peak_data_isOk (s : String) (t : NmrType)
    (h : ∀ ln ∈ splitOnChar '\n' (pyStripChars s.data), lineIntensityOk ln = true) :
    (parse_peak_data s t).isOk = true := by
  unfold parse_peak_data
  dsimp only
  split
  · rfl
  · cases hsp : splitOnChar '\n' (pyStripChars s.data) with
    | nil => exact parsePeakLines_isOk [] fun ln hl => absurd hl (List.not_mem_nil ln)
    | cons l0 rest =>
      rw [hsp] at h
      show (parsePeakLines (if isHeaderLine l0 = true then rest else l0 :: rest)).isOk = true
      by_cases hh : isHeaderLine l0 = true
      · rw [if_pos hh]
        exact parsePeakLines_isOk rest fun ln hl => h ln (List.mem_cons_of_mem _ hl)
      · rw [if_neg hh]
        exact parsePeakLines_isOk (l0 :: rest) h

/-- Claim C8 counterexample: a regex-matching line whose intensity token is
`.` (a non-numeric token) ABORTS the whole parse with an uncaught
`ValueError` from `float('.')`, instead of being skipped individually: the
well-formed first line is lost and the function does not return. -/
theorem C8_counterexample_intensity_token_aborts :
    parse_peak_data "3.35 49.7\n7.20 128.1 ." NmrType.hsqc =
      .error "ValueError: could not convert string to float: ." ∧
    matchPeakLine "7.20 128.1 ." = some ("7.20", "128.1", ".") ∧
    pyFloat? "." = none := by
  decide

/-- Claim C8 amended: parsing is total and lenient EXCEPT for lines whose
regex-captured intensity token is nonempty and rejected by `float`: when no
line of the input is of that kind, `parse_peak_data` returns without raising;
a line failing the peak regex is skipped individually while the remaining
lines are still parsed (the spec's three-line example keeps exactly its two
well-formed peaks); empty input yields the empty peak list; and the quick
comparator answers empty input with the explicit no-peaks message. -/
theorem C8_amended_parse_totality (s : String) (t : NmrType) (d1 dC : ℚ)
    (groups : List (String × List RefPeak))
    (h : ∀ ln ∈ splitOnChar '\n' (pyStripChars s.data), lineIntensityOk ln = true) :
    (parse_peak_data s t).isOk = true ∧
    parse_peak_data "" t = .ok [] ∧
    parse_peak_data "3.35 49.7\nmalformed line here\n7.20 128.1 0.5" NmrType.hsqc =
      .ok [⟨3.35, 49.7, 1⟩, ⟨7.20, 128.1, 0.5⟩] ∧
    compare_peaks "" d1 dC groups =
      .ok ⟨[], [], some "No HSQC peaks provided for analysis."⟩ := by
  refine ⟨parse_peak_data_isOk s t h, rfl, by decide, rfl⟩

/-- Witness for the amended Claim C8 at the spec's drop-on-malformed input. -/
theorem C8_witness :
    (parse_peak_data "3.35 49.7\nmalformed line here\n7.20 128.1 0.5"
      NmrType.hsqc).isOk = true ∧
    parse_peak_data "" NmrType.hsqc = .ok [] ∧
    parse_peak_data "3.35 49.7\nmalformed line here\n7.20 128.1 0.5" NmrType.hsqc =
      .ok [⟨3.35, 49.7, 1⟩, ⟨7.20, 128.1, 0.5⟩] ∧
    compare_peaks "" 0.06 0.8 [] =
      .ok ⟨[], [], some "No HSQC peaks provided for analysis."⟩ :=
  C8_amended_parse_totality "3.35 49.7\nmalformed line here\n7.20 128.1 0.5"
    NmrType.hsqc 0.06 0.8 [] (by decide)

/-- Claim C9 counterexample: the shift token `-3.5` contains a dash and is
not a well-formed two-part range (its split parts are `` and `3.5`, the first
of which `float` rejects), yet `float('-3.5')` itself succeeds; the claimed
fallback would keep the value -3.5, but `_parse_single_value_or_range`
returns `None` and the line is dropped: there is no fallback. -/
theorem C9_counterexample_no_fallback :
    (pyStrip "-3.5").data.contains '-' = true ∧
    ((splitOnChar '-' (pyStrip "-3.5").data).map String.mk).map pyFloat? =
      [none, some 3.5] ∧
    pyFloat? "-3.5" = some (-3.5) ∧
    _parse_single_value_or_range "-3.5" = none := by
  decide

/-- Claim C9 amended: for a shift token containing a dash there is NO
fallback to parsing the whole token as a single float: the parse succeeds
only when the dash-split of the stripped token consists of exactly two
`float`-parsable parts, and the value is then their midpoint; in every other
case (including tokens such as `-3.5` that would parse as a single float)
the result is `None` and the line is dropped. -/
theorem C9_amended_no_single_float_fallback (s : String) (v : ℚ)
    (hdash : (pyStrip s).data.contains '-' = true)
    (hsome : _parse_single_value_or_range s = some v) :
    ∃ a b, ((splitOnChar '-' (pyStrip s).data).map String.mk).map pyFloat? =
      [some a, some b] ∧ v = (a + b) / 2 := by
  unfold _parse_single_value_or_range at hsome
  dsimp only at hsome
  rw [hdash] at hsome
  rw [if_pos rfl] at hsome
  split at hsome
  · rename_i a b heq
    exact ⟨a, b, heq, (Option.some.inj hsome).symm⟩
  · cases hsome

/-- Witness for the amended Claim C9 on the well-formed range `3-4`. -/
theorem C9_witness :
    ∃ a b, ((splitOnChar '-' (pyStrip "3-4").data).map String.mk).map pyFloat? =
      [some a, some b] ∧ (3.5 : ℚ) = (a + b) / 2 :=
  C9_amended_no_single_float_fallback "3-4" 3.5 (by decide) (by decide)


end MatcherProofs
